import Mathlib

/-!
Shallow embedding of the kcp-users-controller reconciliation core.

The definitions below translate, function by function, the Go sources:
* `internal/controller/user_controller.go` (the `UserReconciler`:
  `Reconcile`, `syncUserWithUserPool`, `deleteUserFromUserPool`,
  `containsFinalizer`, `removeFinalizer`);
* `pkg/cognito/aws.go` (`AWSClient.GetUser`, `AWSClient.CreateUser`,
  `AWSClient.UpdateUser`, `AWSClient.DeleteUser`);
* `pkg/cognito/mock.go` (`MockClient`);
* `api/v1alpha1/user_types.go` (the `User` resource types).

External collaborators (the per-cluster object store and the directory
provider) are modelled as behaviour records: for each possible argument
the record fixes the outcome of the corresponding remote call, so a
theorem quantified over a behaviour record covers every outcome of the
collaborator.  Side-effecting calls are collected into an event trace so
that ordering claims ("no directory mutation before the finalizer is
persisted") can be stated about the trace.
-/

namespace KcpUsers

/-- Model of `userpool.User`: an account in the external user pool
(fields Username, Email, Enabled, Sub). -/
structure PoolUser where
  username : String
  email : String
  enabled : Bool
  sub : String
  deriving DecidableEq, Repr

/-- Errors returned by a directory (user-pool) call.  The controller
only ever branches on error-vs-success, but claims distinguish a
not-found report from other failures. -/
inductive DirError where
  | notFound
  | other (msg : String)
  deriving DecidableEq, Repr

/-- One possible behaviour of the `userpool.Client` collaborator: for
every argument, the outcome of the corresponding remote call. -/
structure DirBehavior where
  getUser : String → Except DirError PoolUser
  createUser : PoolUser → Except DirError PoolUser
  updateUser : PoolUser → Option DirError
  deleteUser : String → Option DirError

/-- Model of `v1alpha1.UserSpec`: desired state (email, enabled). -/
structure UserSpec where
  email : String
  enabled : Bool
  deriving DecidableEq, Repr

/-- Model of `v1alpha1.UserStatus`: observed state.  `lastSyncTime` is the
nullable `*metav1.Time`, timestamps abstracted to `Nat`. -/
structure UserStatus where
  sub : String
  userPoolStatus : String
  lastSyncTime : Option Nat
  deriving DecidableEq, Repr

/-- The `v1alpha1.User` resource as the controller sees it after a
successful fetch: object metadata (name, finalizers, nullable deletion
timestamp, annotations) plus spec and status. -/
structure KUser where
  name : String
  finalizers : List String
  deletionTimestamp : Option Nat
  annotations : List (String × String)
  spec : UserSpec
  status : UserStatus
  deriving DecidableEq, Repr

/-- Trace events: each remote call the reconciler issues, in order. -/
inductive Event where
  | dirGet (id : String)
  | dirCreate (u : PoolUser)
  | dirUpdate (u : PoolUser)
  | dirDelete (id : String)
  | kubeUpdate (u : KUser)
  | kubeStatusUpdate (u : KUser)
  deriving DecidableEq, Repr

/-- One possible behaviour of the object store (`client.Update` and
`client.Status().Update`): for every written object, the outcome
(`none` = success, `some msg` = error). -/
structure KubeBehavior where
  update : KUser → Option String
  statusUpdate : KUser → Option String

/-- Errors a reconciliation pass can return, keeping the wrapped cause
(`fmt.Errorf("...: %w", err)` in the Go code). -/
inductive RecError where
  | createFailed (e : DirError)
  | updateFailed (e : DirError)
  | kubeUpdateFailed (e : String)
  | kubeStatusUpdateFailed (e : String)
  deriving DecidableEq, Repr

/-- The well-known cleanup finalizer marker
(`user_controller.go` line 80). -/
def finalizerName : String := "kcp.cogniteo.io/user-pool-cleanup"

/-- Embedding of `containsFinalizer` (user_controller.go lines 220-227): linear scan
for an exact match. -/
def containsFinalizer (finalizers : List String) (finalizer : String) : Bool :=
  finalizers.any (fun f => f = finalizer)

/-- Embedding of `removeFinalizer` (user_controller.go lines 230-238): keeps, in
order, every element different from the marker; always returns a
(possibly empty) sequence. -/
def removeFinalizer (finalizers : List String) (finalizer : String) : List String :=
  finalizers.filter (fun f => decide (f ≠ finalizer))

/-- The Engine's finalizer-add step (user_controller.go lines 97-98):
append the marker when it is not already present. -/
def addFinalizer (finalizers : List String) (finalizer : String) : List String :=
  if containsFinalizer finalizers finalizer then finalizers
  else finalizers ++ [finalizer]

/-- The desired pool account built from the resource
(`syncUserWithUserPool` lines 136-140; `Sub` is left at its Go zero
value). -/
def poolUserOf (u : KUser) : PoolUser :=
  { username := u.name, email := u.spec.email, enabled := u.spec.enabled, sub := "" }

/-- The identifier used for the sync-pass directory lookup
(`syncUserWithUserPool` lines 146-152): the stored sub when non-empty,
otherwise the spec email. -/
def lookupId (u : KUser) : String :=
  if u.status.sub ≠ "" then u.status.sub else u.spec.email

/-- Result of `syncUserWithUserPool`: the (possibly status-mutated)
resource, the returned error, and the directory calls issued. -/
structure SyncResult where
  user : KUser
  err : Option RecError
  events : List Event
  deriving Repr

/-- Embedding of `syncUserWithUserPool` (user_controller.go lines 135-190).
Any `get` error enters the create branch; a found account is updated
exactly when email or enabled differ field-wise; on success the sync
time is stamped and an empty stored sub is backfilled from the found
account. -/
def syncUserWithUserPool (d : DirBehavior) (now : Nat) (u : KUser) : SyncResult :=
  match d.getUser (lookupId u) with
  | .error _ =>
    -- create branch (lines 154-167)
    match d.createUser (poolUserOf u) with
    | .error e =>
      { user := u, err := some (.createFailed e),
        events := [.dirGet (lookupId u), .dirCreate (poolUserOf u)] }
    | .ok created =>
      { user := { u with status :=
          { sub := created.sub, userPoolStatus := "CONFIRMED", lastSyncTime := some now } },
        err := none,
        events := [.dirGet (lookupId u), .dirCreate (poolUserOf u)] }
  | .ok existing =>
    -- found branch (lines 168-187)
    if existing.email ≠ u.spec.email ∨ existing.enabled ≠ u.spec.enabled then
      match d.updateUser (poolUserOf u) with
      | some e =>
        { user := u, err := some (.updateFailed e),
          events := [.dirGet (lookupId u), .dirUpdate (poolUserOf u)] }
      | none =>
        { user := { u with status :=
            { sub := if u.status.sub = "" then existing.sub else u.status.sub,
              userPoolStatus := u.status.userPoolStatus,
              lastSyncTime := some now } },
          err := none,
          events := [.dirGet (lookupId u), .dirUpdate (poolUserOf u)] }
    else
      { user := { u with status :=
          { sub := if u.status.sub = "" then existing.sub else u.status.sub,
            userPoolStatus := u.status.userPoolStatus,
            lastSyncTime := some now } },
        err := none,
        events := [.dirGet (lookupId u)] }

/-- Embedding of `deleteUserFromUserPool` (user_controller.go lines 193-217): resolve
by sub, falling back to the resource name; a failed lookup skips the
delete; a failed delete is logged and swallowed.  Returns only the trace
(the Go function returns nothing). -/
def deleteUserFromUserPool (d : DirBehavior) (username : String) (sub : String) :
    List Event :=
  let identifier := if sub = "" then username else sub
  match d.getUser identifier with
  | .error _ => [.dirGet identifier]
  | .ok _ =>
    match d.deleteUser identifier with
    | _ => [.dirGet identifier, .dirDelete identifier]

/-- Result of a reconciliation pass: the returned `ctrl.Result`'s
requeue delay in minutes, the returned error, the in-memory resource at
return, and the trace of remote calls. -/
structure ReconcileResult where
  requeueAfterMinutes : Nat
  err : Option RecError
  finalUser : KUser
  events : List Event
  deriving Repr

/-- Go map assignment `annotations[k] = v` over the association-list
model: replace the value under an existing key, else append. -/
def putAnnot (anns : List (String × String)) (k v : String) :
    List (String × String) :=
  if anns.any (fun p => p.1 = k) then
    anns.map (fun p => if p.1 = k then (k, v) else p)
  else anns ++ [(k, v)]

/-- The tail of the non-deletion path (user_controller.go lines
113-131): stamp the last-reconciled annotation, persist the resource,
then persist its status as a second write. -/
def annotateAndPersist (kube : KubeBehavior) (now : Nat) (u : KUser)
    (pre : List Event) : ReconcileResult :=
  let anns2 := putAnnot u.annotations "kcp.cogniteo.io/lastReconciledAt" (toString now)
  let u2 := { u with annotations := anns2 }
  match kube.update u2 with
  | some e =>
    { requeueAfterMinutes := 0, err := some (.kubeUpdateFailed e),
      finalUser := u2, events := pre ++ [.kubeUpdate u2] }
  | none =>
    match kube.statusUpdate u2 with
    | some e =>
      { requeueAfterMinutes := 0, err := some (.kubeStatusUpdateFailed e),
        finalUser := u2, events := pre ++ [.kubeUpdate u2, .kubeStatusUpdate u2] }
    | none =>
      { requeueAfterMinutes := 0, err := none,
        finalUser := u2, events := pre ++ [.kubeUpdate u2, .kubeStatusUpdate u2] }

/-- The non-deletion path after the finalizer is ensured
(user_controller.go lines 105-131): run the sync pass when a directory
client is configured — a sync error returns with a 5-minute requeue —
then annotate and persist. -/
def reconcileActive (kube : KubeBehavior) (dir : Option DirBehavior) (now : Nat)
    (u : KUser) : ReconcileResult :=
  match dir with
  | none => annotateAndPersist kube now u []
  | some d =>
    let s := syncUserWithUserPool d now u
    match s.err with
    | some e =>
      { requeueAfterMinutes := 5, err := some e,
        finalUser := s.user, events := s.events }
    | none => annotateAndPersist kube now s.user s.events

/-- Embedding of `Reconcile` (user_controller.go lines 60-132) from the successful
fetch on (the earlier cluster-lookup and fetch failures return before
any call modelled here).  Deletion path: best-effort directory cleanup,
then remove the finalizer and persist.  Active path: ensure the
finalizer is persisted before the sync pass runs. -/
def reconcileUser (kube : KubeBehavior) (dir : Option DirBehavior) (now : Nat)
    (u0 : KUser) : ReconcileResult :=
  match u0.deletionTimestamp with
  | some _ =>
    let ev1 := match dir with
      | some d => deleteUserFromUserPool d u0.name u0.status.sub
      | none => []
    let u1 := { u0 with finalizers := removeFinalizer u0.finalizers finalizerName }
    match kube.update u1 with
    | some e =>
      { requeueAfterMinutes := 0, err := some (.kubeUpdateFailed e),
        finalUser := u1, events := ev1 ++ [.kubeUpdate u1] }
    | none =>
      { requeueAfterMinutes := 0, err := none,
        finalUser := u1, events := ev1 ++ [.kubeUpdate u1] }
  | none =>
    if containsFinalizer u0.finalizers finalizerName then
      reconcileActive kube dir now u0
    else
      let u1 := { u0 with finalizers := u0.finalizers ++ [finalizerName] }
      match kube.update u1 with
      | some e =>
        { requeueAfterMinutes := 0, err := some (.kubeUpdateFailed e),
          finalUser := u1, events := [.kubeUpdate u1] }
      | none =>
        let r := reconcileActive kube dir now u1
        { r with events := .kubeUpdate u1 :: r.events }

/-- Whether an event is a directory-mutating call. -/
def isDirMutating : Event → Bool
  | .dirCreate _ => true
  | .dirUpdate _ => true
  | .dirDelete _ => true
  | _ => false

/-- Whether an event is any directory call at all. -/
def isDirEvent : Event → Bool
  | .dirGet _ => true
  | .dirCreate _ => true
  | .dirUpdate _ => true
  | .dirDelete _ => true
  | _ => false

/-- Whether an event is a status-subresource write. -/
def isStatusWrite : Event → Bool
  | .kubeStatusUpdate _ => true
  | _ => false

/-- Whether an event is a directory create call. -/
def isDirCreate : Event → Bool
  | .dirCreate _ => true
  | _ => false

/-- Whether an event is a directory update call. -/
def isDirUpdate : Event → Bool
  | .dirUpdate _ => true
  | _ => false

/-! ### AWS Cognito client (`pkg/cognito/aws.go`) -/

/-- Errors the underlying Cognito SDK can return, distinguishing the
typed exceptions the client branches on. -/
inductive AWSErr where
  | userNotFound
  | usernameExists
  | other (msg : String)
  deriving DecidableEq, Repr

/-- Rendering of an SDK error, standing for Go's `err.Error()` inside
the `%w`-wrapped messages. -/
def awsErrMsg : AWSErr → String
  | .userNotFound => "UserNotFoundException"
  | .usernameExists => "UsernameExistsException"
  | .other m => m

/-- The `AdminGetUser` output: the account's enabled flag and its attribute
list (name-value pairs). -/
structure AdminGetUserOutput where
  enabled : Bool
  userAttributes : List (String × String)
  deriving DecidableEq, Repr

/-- One possible behaviour of the `CognitoAPI` collaborator (the raw
SDK operations the `AWSClient` methods call). -/
structure AWSApi where
  adminCreateUser : String → Except AWSErr (List (String × String))
  adminGetUser : String → Except AWSErr AdminGetUserOutput
  adminUpdateUserAttributes : String → String → Option AWSErr
  adminEnableUser : String → Option AWSErr
  adminDisableUser : String → Option AWSErr
  adminDeleteUser : String → Except AWSErr Unit

/-- First attribute value under the given name, as the Go loops over
`UserAttributes` extract it. -/
def findAttr (attrs : List (String × String)) (name : String) : Option String :=
  (attrs.find? (fun p => p.1 = name)).map (fun p => p.2)

/-- Embedding of `AWSClient.GetUser` (aws.go lines 176-206): rejects an empty
username, wraps any SDK error, and otherwise builds the account with
`Sub` set to the username used for the lookup ("the username is the sub
in Cognito") and the email taken from the attributes. -/
def awsGetUser (api : AWSApi) (username : String) : Except DirError PoolUser :=
  if username = "" then .error (.other "username cannot be empty")
  else
    match api.adminGetUser username with
    | .error e =>
      .error (.other ("failed to get user " ++ username ++ ": " ++ awsErrMsg e))
    | .ok out =>
      .ok { username := username, enabled := out.enabled, sub := username,
            email := (findAttr out.userAttributes "email").getD "" }

/-- Embedding of `AWSClient.CreateUser` (aws.go lines 117-173): rejects an empty
email, uses the email as the Cognito username, resolves an
already-exists conflict by fetching the existing account, and on
success reads the `sub` attribute from the response, falling back to
the email. -/
def awsCreateUser (api : AWSApi) (user : PoolUser) : Except DirError PoolUser :=
  if user.email = "" then .error (.other "email cannot be empty")
  else
    match api.adminCreateUser user.email with
    | .error .usernameExists => awsGetUser api user.email
    | .error e =>
      .error (.other ("failed to create user " ++ user.email ++ ": " ++ awsErrMsg e))
    | .ok attrs =>
      .ok { username := user.username, email := user.email, enabled := user.enabled,
            sub := (findAttr attrs "sub").getD user.email }

/-- Embedding of `AWSClient.UpdateUser` (aws.go lines 209-258): update the email
attribute, then enable or disable according to the desired flag. -/
def awsUpdateUser (api : AWSApi) (user : PoolUser) : Option DirError :=
  if user.username = "" then some (.other "username cannot be empty")
  else
    match api.adminUpdateUserAttributes user.username user.email with
    | some e =>
      some (.other ("failed to update user attributes for " ++ user.username ++ ": "
        ++ awsErrMsg e))
    | none =>
      if user.enabled then
        match api.adminEnableUser user.username with
        | some e =>
          some (.other ("failed to enable user " ++ user.username ++ ": " ++ awsErrMsg e))
        | none => none
      else
        match api.adminDisableUser user.username with
        | some e =>
          some (.other ("failed to disable user " ++ user.username ++ ": " ++ awsErrMsg e))
        | none => none

/-- Embedding of `AWSClient.DeleteUser` (aws.go lines 261-283): rejects an empty
username, treats a `UserNotFoundException` as success, and wraps every
other SDK error. -/
def awsDeleteUser (api : AWSApi) (username : String) : Option DirError :=
  if username = "" then some (.other "username cannot be empty")
  else
    match api.adminDeleteUser username with
    | .ok _ => none
    | .error .userNotFound => none
    | .error e =>
      some (.other ("failed to delete user " ++ username ++ ": " ++ awsErrMsg e))

/-- The `AWSClient` as a `DirBehavior`: the concrete binding the Engine
calls through the `userpool.Client` interface. -/
def dirOfAWS (api : AWSApi) : DirBehavior :=
  { getUser := awsGetUser api
    createUser := awsCreateUser api
    updateUser := awsUpdateUser api
    deleteUser := awsDeleteUser api }

/-! ### Mock client (`pkg/cognito/mock.go`)

The mock's `users` map is modelled as an association list with unique
keys (Go map semantics); read operations return the value under the
key, `delete` removes the key. -/

/-- Value stored under a key in the mock's map. -/
def mockLookup (users : List (String × PoolUser)) (username : String) :
    Option PoolUser :=
  (users.find? (fun p => p.1 = username)).map (fun p => p.2)

/-- Embedding of `MockClient.CreateUser` (mock.go lines 39-62): reject an empty
username; return the stored account when one exists; otherwise store a
copy with `Sub` set to the username.  Returns the (account, new store)
pair on success. -/
def mockCreateUser (users : List (String × PoolUser)) (user : PoolUser) :
    Except String (PoolUser × List (String × PoolUser)) :=
  if user.username = "" then .error "username cannot be empty"
  else
    match mockLookup users user.username with
    | some existing => .ok (existing, users)
    | none =>
      let created : PoolUser :=
        { username := user.username, email := user.email, enabled := user.enabled,
          sub := user.username }
      .ok (created, users ++ [(user.username, created)])

/-- Embedding of `MockClient.GetUser` (mock.go lines 65-82): reject an empty
username; error with "user X not found" when absent. -/
def mockGetUser (users : List (String × PoolUser)) (username : String) :
    Except String PoolUser :=
  if username = "" then .error "username cannot be empty"
  else
    match mockLookup users username with
    | none => .error ("user " ++ username ++ " not found")
    | some u => .ok u

/-- Embedding of `MockClient.DeleteUser` (mock.go lines 109-121): reject an empty
username; error with "user X not found" when the account is absent;
otherwise remove it.  Returns the new store on success. -/
def mockDeleteUser (users : List (String × PoolUser)) (username : String) :
    Except String (List (String × PoolUser)) :=
  if username = "" then .error "username cannot be empty"
  else
    match mockLookup users username with
    | none => .error ("user " ++ username ++ " not found")
    | some _ => .ok (users.filter (fun p => decide (p.1 ≠ username)))

/-! ### Concrete behaviours shared by the scenario theorems -/

/-- An object store on which every write succeeds. -/
def kubeOk : KubeBehavior :=
  { update := fun _ => none, statusUpdate := fun _ => none }

/-- A directory in which no account is ever found and creation assigns
the subject id `new-sub`. -/
def dirNewSub : DirBehavior :=
  { getUser := fun _ => .error .notFound
    createUser := fun pu => .ok { pu with sub := "new-sub" }
    updateUser := fun _ => none
    deleteUser := fun _ => none }

/-- A resource that already carries the subject id `old-sub`. -/
def kuOldSub : KUser :=
  { name := "alice", finalizers := [finalizerName], deletionTimestamp := none,
    annotations := [], spec := { email := "a@x.com", enabled := true },
    status := { sub := "old-sub", userPoolStatus := "CONFIRMED", lastSyncTime := none } }

/-- A concrete SDK behaviour whose delete reports not-found. -/
def apiDeleteNotFound : AWSApi :=
  { adminCreateUser := fun _ => .error (.other "unused")
    adminGetUser := fun _ => .error .userNotFound
    adminUpdateUserAttributes := fun _ _ => none
    adminEnableUser := fun _ => none
    adminDisableUser := fun _ => none
    adminDeleteUser := fun _ => .error .userNotFound }

/-- A concrete SDK behaviour for the C10 witness: every account lookup
reports an enabled account with email attribute `a@x.com`. -/
def apiGetConst : AWSApi :=
  { adminCreateUser := fun _ => .error (.other "unused")
    adminGetUser := fun _ => .ok { enabled := true, userAttributes := [("email", "a@x.com")] }
    adminUpdateUserAttributes := fun _ _ => none
    adminEnableUser := fun _ => none
    adminDisableUser := fun _ => none
    adminDeleteUser := fun _ => .ok () }

/-- The account `awsGetUser apiGetConst "a@x.com"` returns. -/
def exGetConst : PoolUser :=
  { username := "a@x.com", email := "a@x.com", enabled := true, sub := "a@x.com" }

/-- A resource with no stored subject id for the C10 witness. -/
def kuNoSub : KUser :=
  { name := "alice", finalizers := [finalizerName], deletionTimestamp := none,
    annotations := [], spec := { email := "a@x.com", enabled := true },
    status := { sub := "", userPoolStatus := "", lastSyncTime := none } }

/-- A resource with no stored subject id and an empty spec email. -/
def kuNoSubNoEmail : KUser :=
  { name := "alice", finalizers := [finalizerName], deletionTimestamp := none,
    annotations := [], spec := { email := "", enabled := true },
    status := { sub := "", userPoolStatus := "", lastSyncTime := none } }

/-- A directory holding exactly the account the spec of `kuOldSub`
desires, under its stored subject id. -/
def dirMatchOld : DirBehavior :=
  { getUser := fun i =>
      if i = "old-sub" then
        .ok { username := "alice", email := "a@x.com", enabled := true, sub := "old-sub" }
      else .error .notFound
    createUser := fun pu => .ok pu
    updateUser := fun _ => none
    deleteUser := fun _ => none }

/-- A directory in which no account is ever found and creation assigns
the subject id `sub-1`. -/
def dirSub1 : DirBehavior :=
  { getUser := fun _ => .error .notFound
    createUser := fun pu => .ok { pu with sub := "sub-1" }
    updateUser := fun _ => none
    deleteUser := fun _ => none }

/-- A resource with the deletion timestamp set and the cleanup
finalizer present. -/
def kuDeleting : KUser :=
  { name := "u1", finalizers := [finalizerName], deletionTimestamp := some 1,
    annotations := [], spec := { email := "", enabled := false },
    status := { sub := "", userPoolStatus := "", lastSyncTime := none } }

/-- A directory in which no account is ever found and creation always
fails. -/
def dirCreateFail : DirBehavior :=
  { getUser := fun _ => .error .notFound
    createUser := fun _ => .error (.other "boom")
    updateUser := fun _ => none
    deleteUser := fun _ => none }

/-! ### Helper lemmas -/

/-- Function `removeFinalizer` leaves a list untouched when the marker is not in it. -/
lemma removeFinalizer_of_not_contains (S : List String) (m : String)
    (h : containsFinalizer S m = false) : removeFinalizer S m = S := by
  induction S with
  | nil => rfl
  | cons x xs ih =>
    simp only [containsFinalizer, List.any_cons, Bool.or_eq_false_iff,
      decide_eq_false_iff_not] at h
    simp only [removeFinalizer, List.filter_cons, decide_eq_true_eq]
    rw [if_pos h.1]
    have := ih (by simpa [containsFinalizer] using h.2)
    simp only [removeFinalizer] at this
    rw [this]

/-- Removing the marker after appending it removes exactly the appended
occurrence when the marker was absent before. -/
lemma removeFinalizer_append_self (S : List String) (m : String) :
    removeFinalizer (S ++ [m]) m = removeFinalizer S m := by
  simp [removeFinalizer, List.filter_append]

/-- The marker is never present after `removeFinalizer`. -/
lemma containsFinalizer_removeFinalizer (S : List String) (m : String) :
    containsFinalizer (removeFinalizer S m) m = false := by
  simp only [containsFinalizer, removeFinalizer, List.any_eq_false,
    decide_eq_true_eq]
  intro x hx
  have := List.of_mem_filter hx
  simpa using this

/-- A successful `AWSClient.GetUser` call returns the lookup identifier
itself in the `Sub` field. -/
lemma awsGetUser_sub (api : AWSApi) (i : String) (u : PoolUser)
    (h : awsGetUser api i = .ok u) : u.sub = i := by
  unfold awsGetUser at h
  split at h
  · exact absurd h (by simp)
  · split at h
    · exact absurd h (by simp)
    · simp only [Except.ok.injEq] at h
      rw [← h]

/-! ### C5: finalizer round-trip -/

/-- C5 (amended): for every finalizer sequence `S` **not already
containing** the marker `m`, removing `m` after the Engine's
finalizer-add step restores exactly `S`; `removeFinalizer` always
returns a plain (possibly empty) list. -/
theorem C5_finalizer_roundtrip (S : List String) (m : String)
    (h : containsFinalizer S m = false) :
    removeFinalizer (addFinalizer S m) m = S := by
  unfold addFinalizer
  rw [if_neg (by simp [h]), removeFinalizer_append_self,
    removeFinalizer_of_not_contains S m h]

/-- C5 witness: the round-trip at a concrete sequence and marker. -/
theorem C5_finalizer_roundtrip_witness :
    containsFinalizer ["other-finalizer"] finalizerName = false ∧
    removeFinalizer (addFinalizer ["other-finalizer"] finalizerName) finalizerName
      = ["other-finalizer"] :=
  ⟨by decide, C5_finalizer_roundtrip ["other-finalizer"] finalizerName (by decide)⟩

/-- C5 counterexample: the claim quantifies over **all** starting
sequences, but when `S` already contains the marker, removal deletes
the pre-existing occurrence too, so the round-trip does not restore
`S`. -/
theorem C5_counterexample :
    removeFinalizer (addFinalizer [finalizerName] finalizerName) finalizerName
      ≠ [finalizerName] := by
  decide

/-! ### C9: delete of a non-existent account -/

/-- C9 (amended): the AWS client's delete treats not-found as success,
but the in-repo mock client returns a "user X not found" error when the
identified account does not exist. -/
theorem C9_delete_not_found (api : AWSApi) (username : String)
    (users : List (String × PoolUser))
    (hne : username ≠ "")
    (hnf : api.adminDeleteUser username = .error .userNotFound)
    (habs : mockLookup users username = none) :
    awsDeleteUser api username = none ∧
    mockDeleteUser users username = .error ("user " ++ username ++ " not found") := by
  constructor
  · unfold awsDeleteUser
    rw [if_neg hne, hnf]
  · unfold mockDeleteUser
    rw [if_neg hne, habs]

/-- C9 witness: deleting the absent user `u1` succeeds on the AWS
client and errors on the mock client with an empty store. -/
theorem C9_delete_not_found_witness :
    awsDeleteUser apiDeleteNotFound "u1" = none ∧
    mockDeleteUser [] "u1" = .error ("user " ++ "u1" ++ " not found") :=
  C9_delete_not_found apiDeleteNotFound "u1" [] (by decide) rfl rfl

/-- C9 counterexample: the claim asserts the mock client also returns
success on a non-existent account; on the empty store and identifier
`u1` the mock's delete returns an error, not success. -/
theorem C9_counterexample :
    mockLookup ([] : List (String × PoolUser)) "u1" = none ∧
    (mockDeleteUser ([] : List (String × PoolUser)) "u1").isOk = false := by
  constructor
  · rfl
  · rfl

/-! ### C10: AWS GetUser returns the identifier as Sub -/

/-- C10: a successful `AWSClient.GetUser i` returns an account whose
`Sub` is the identifier `i` itself; consequently, when the Engine looks
up by spec email (empty stored sub) against the AWS client and the pass
succeeds, the backfilled `status.sub` is the email used for the lookup
rather than a provider-issued subject id. -/
theorem C10_getuser_sub_is_identifier (api : AWSApi) (i : String) (u : PoolUser)
    (now : Nat) (ku : KUser) (ex : PoolUser)
    (hget : awsGetUser api i = .ok u)
    (hsub : ku.status.sub = "")
    (hex : awsGetUser api ku.spec.email = .ok ex)
    (hok : (syncUserWithUserPool (dirOfAWS api) now ku).err = none) :
    u.sub = i ∧
    (syncUserWithUserPool (dirOfAWS api) now ku).user.status.sub = ku.spec.email := by
  refine ⟨awsGetUser_sub api i u hget, ?_⟩
  have hexsub : ex.sub = ku.spec.email := awsGetUser_sub api ku.spec.email ex hex
  have hlook : lookupId ku = ku.spec.email := by
    unfold lookupId
    rw [if_neg (by simp [hsub])]
  unfold syncUserWithUserPool
  simp only [dirOfAWS, hlook, hex]
  split
  · -- email/enabled drift: the update call must have succeeded
    split
    · rename_i e hupd
      exfalso
      unfold syncUserWithUserPool at hok
      simp only [dirOfAWS, hlook, hex] at hok
      rw [if_pos (by assumption)] at hok
      rw [hupd] at hok
      simp at hok
    · simp [hsub, hexsub]
  · simp [hsub, hexsub]

/-- C10 witness: concrete lookup by email `a@x.com` with empty stored
sub backfills the email into `status.sub`. -/
theorem C10_getuser_sub_is_identifier_witness :
    exGetConst.sub = "a@x.com" ∧
    (syncUserWithUserPool (dirOfAWS apiGetConst) 0 kuNoSub).user.status.sub
      = kuNoSub.spec.email :=
  C10_getuser_sub_is_identifier apiGetConst "a@x.com" exGetConst 0 kuNoSub
    exGetConst rfl rfl rfl rfl

/-! ### C1: the stored subject id can be overwritten -/

/-- C1 (amended): the found branch never changes a non-empty
`status.sub`; the only way a sync pass leaves a different value there is
the create branch — entered whenever the directory get returns an error
— which stores the created account's subject id over the old one. -/
theorem C1_sub_overwrite_only_on_create (d : DirBehavior) (now : Nat) (u : KUser)
    (hne : u.status.sub ≠ "")
    (hch : (syncUserWithUserPool d now u).user.status.sub ≠ u.status.sub) :
    ∃ e c, d.getUser u.status.sub = .error e ∧
      d.createUser (poolUserOf u) = .ok c ∧
      (syncUserWithUserPool d now u).user.status.sub = c.sub := by
  have hlook : lookupId u = u.status.sub := by
    unfold lookupId
    rw [if_pos hne]
  cases hget : d.getUser u.status.sub with
  | error e =>
    cases hc : d.createUser (poolUserOf u) with
    | error e2 =>
      exfalso
      apply hch
      simp only [syncUserWithUserPool, hlook, hget, hc]
    | ok c =>
      refine ⟨e, c, rfl, rfl, ?_⟩
      simp only [syncUserWithUserPool, hlook, hget, hc]
  | ok ex =>
    exfalso
    apply hch
    simp only [syncUserWithUserPool, hlook, hget]
    by_cases hd : ex.email ≠ u.spec.email ∨ ex.enabled ≠ u.spec.enabled
    · rw [if_pos hd]
      cases hupd : d.updateUser (poolUserOf u) with
      | some e => simp [hupd]
      | none => simp [hupd, hne]
    · rw [if_neg hd]
      simp [hne]

/-- C1 witness: the overwrite really happens at a concrete input, and
the theorem locates it in the create branch. -/
theorem C1_sub_overwrite_only_on_create_witness :
    ∃ e c, dirNewSub.getUser kuOldSub.status.sub = .error e ∧
      dirNewSub.createUser (poolUserOf kuOldSub) = .ok c ∧
      (syncUserWithUserPool dirNewSub 0 kuOldSub).user.status.sub = c.sub :=
  C1_sub_overwrite_only_on_create dirNewSub 0 kuOldSub (by decide) (by decide)

/-- C1 counterexample: a full reconciliation pass over a resource whose
stored subject id is the non-empty `old-sub`, against a directory whose
get errors and whose create returns `new-sub`, ends with
`status.sub = new-sub` — a non-empty string different from `old-sub`,
stored by the create branch. -/
theorem C1_counterexample :
    kuOldSub.status.sub = "old-sub" ∧
    (reconcileUser kubeOk (some dirNewSub) 0 kuOldSub).finalUser.status.sub
      = "new-sub" := by
  exact ⟨rfl, rfl⟩

/-! ### C4: the sync-pass lookup identifier -/

/-- C4 (amended): the sync pass's directory get uses the stored subject
id when non-empty and otherwise the spec email — even when the email is
empty; there is no fallback to the resource's local name on this path. -/
theorem C4_lookup_identifier (d : DirBehavior) (now : Nat) (u : KUser) :
    (syncUserWithUserPool d now u).events.head? =
      some (.dirGet (if u.status.sub ≠ "" then u.status.sub else u.spec.email)) := by
  cases hget : d.getUser (lookupId u) with
  | error e =>
    cases hc : d.createUser (poolUserOf u) with
    | error e2 =>
      simp only [syncUserWithUserPool, hget, hc]
      rfl
    | ok c =>
      simp only [syncUserWithUserPool, hget, hc]
      rfl
  | ok ex =>
    simp only [syncUserWithUserPool, hget]
    by_cases hd : ex.email ≠ u.spec.email ∨ ex.enabled ≠ u.spec.enabled
    · rw [if_pos hd]
      cases hupd : d.updateUser (poolUserOf u) with
      | some e =>
        simp only [hupd]
        rfl
      | none =>
        simp only [hupd]
        rfl
    · rw [if_neg hd]
      rfl

/-- C4 counterexample: with empty stored sub and empty spec email the
lookup is issued with the empty string (the email), not with the local
name `alice`; no get with the local name occurs at all. -/
theorem C4_counterexample :
    kuNoSubNoEmail.name = "alice" ∧
    (syncUserWithUserPool dirNewSub 0 kuNoSubNoEmail).events.head?
      = some (.dirGet "") ∧
    Event.dirGet "alice" ∉ (syncUserWithUserPool dirNewSub 0 kuNoSubNoEmail).events := by
  refine ⟨rfl, rfl, ?_⟩
  decide

/-! ### C7: the found branch -/

/-- C7: when the sync pass's get succeeds, create is never called;
update is called exactly once iff the found account's email or enabled
flag differs from the spec; and on success (fields match, or the update
succeeds) the sync time is stamped and an empty stored sub is
backfilled from the found account. -/
theorem C7_found_branch (d : DirBehavior) (now : Nat) (u : KUser) (ex : PoolUser)
    (hget : d.getUser (lookupId u) = .ok ex) :
    (syncUserWithUserPool d now u).events.countP isDirCreate = 0 ∧
    (syncUserWithUserPool d now u).events.countP isDirUpdate
      = (if ex.email ≠ u.spec.email ∨ ex.enabled ≠ u.spec.enabled then 1 else 0) ∧
    (((ex.email = u.spec.email ∧ ex.enabled = u.spec.enabled) ∨
        d.updateUser (poolUserOf u) = none) →
      (syncUserWithUserPool d now u).err = none ∧
      (syncUserWithUserPool d now u).user.status.lastSyncTime = some now ∧
      (syncUserWithUserPool d now u).user.status.sub
        = (if u.status.sub = "" then ex.sub else u.status.sub)) := by
  by_cases hd : ex.email ≠ u.spec.email ∨ ex.enabled ≠ u.spec.enabled
  · cases hupd : d.updateUser (poolUserOf u) with
    | some e =>
      have hs : syncUserWithUserPool d now u =
          { user := u, err := some (.updateFailed e),
            events := [.dirGet (lookupId u), .dirUpdate (poolUserOf u)] } := by
        simp only [syncUserWithUserPool, hget, hupd]
        rw [if_pos hd]
      refine ⟨by rw [hs]; simp [List.countP_cons, isDirCreate],
        by rw [hs, if_pos hd]; simp [List.countP_cons, isDirUpdate], ?_⟩
      rintro (⟨h1, h2⟩ | h)
      · exact absurd hd (by simp [h1, h2])
      · simp [hupd] at h
    | none =>
      have hs : syncUserWithUserPool d now u =
          { user := { u with status :=
              { sub := if u.status.sub = "" then ex.sub else u.status.sub,
                userPoolStatus := u.status.userPoolStatus,
                lastSyncTime := some now } },
            err := none,
            events := [.dirGet (lookupId u), .dirUpdate (poolUserOf u)] } := by
        simp only [syncUserWithUserPool, hget, hupd]
        rw [if_pos hd]
      refine ⟨by rw [hs]; simp [List.countP_cons, isDirCreate],
        by rw [hs, if_pos hd]; simp [List.countP_cons, isDirUpdate], ?_⟩
      intro _
      exact ⟨by rw [hs], by rw [hs], by rw [hs]⟩
  · have hs : syncUserWithUserPool d now u =
        { user := { u with status :=
            { sub := if u.status.sub = "" then ex.sub else u.status.sub,
              userPoolStatus := u.status.userPoolStatus,
              lastSyncTime := some now } },
          err := none,
          events := [.dirGet (lookupId u)] } := by
      simp only [syncUserWithUserPool, hget]
      rw [if_neg hd]
    refine ⟨by rw [hs]; simp [List.countP_cons, isDirCreate],
      by rw [hs, if_neg hd]; simp [List.countP_cons, isDirUpdate], ?_⟩
    intro _
    exact ⟨by rw [hs], by rw [hs], by rw [hs]⟩

/-- C7 witness: the no-op path at a concrete input — no create, no
update, sync time stamped, stored sub kept. -/
theorem C7_found_branch_witness :
    (syncUserWithUserPool dirMatchOld 3 kuOldSub).events.countP isDirCreate = 0 ∧
    (syncUserWithUserPool dirMatchOld 3 kuOldSub).events.countP isDirUpdate
      = (if ("a@x.com" : String) ≠ "a@x.com" ∨ (true : Bool) ≠ true then 1 else 0) ∧
    (((("a@x.com" : String) = "a@x.com" ∧ (true : Bool) = true) ∨
        dirMatchOld.updateUser (poolUserOf kuOldSub) = none) →
      (syncUserWithUserPool dirMatchOld 3 kuOldSub).err = none ∧
      (syncUserWithUserPool dirMatchOld 3 kuOldSub).user.status.lastSyncTime = some 3 ∧
      (syncUserWithUserPool dirMatchOld 3 kuOldSub).user.status.sub
        = (if kuOldSub.status.sub = "" then "old-sub" else kuOldSub.status.sub)) :=
  C7_found_branch dirMatchOld 3 kuOldSub
    { username := "alice", email := "a@x.com", enabled := true, sub := "old-sub" }
    rfl

/-! ### C8: the create-path scenario -/

/-- C8: with an empty stored sub, a not-found get and a create that
returns subject id `sub-1`, the pass leaves exactly
`{sub := sub-1, userPoolStatus := CONFIRMED, lastSyncTime := set}`. -/
theorem C8_create_path (d : DirBehavior) (now : Nat) (u : KUser) (c : PoolUser)
    (hsub : u.status.sub = "")
    (hget : d.getUser u.spec.email = .error .notFound)
    (hc : d.createUser (poolUserOf u) = .ok c)
    (hcsub : c.sub = "sub-1") :
    (syncUserWithUserPool d now u).user.status
      = { sub := "sub-1", userPoolStatus := "CONFIRMED", lastSyncTime := some now } := by
  have hlook : lookupId u = u.spec.email := by
    unfold lookupId
    rw [if_neg (by simp [hsub])]
  simp only [syncUserWithUserPool, hlook, hget, hc, hcsub]

/-- C8 witness: the create-path scenario of the spec at a concrete
resource named `alice`. -/
theorem C8_create_path_witness :
    (syncUserWithUserPool dirSub1 7 kuNoSub).user.status
      = { sub := "sub-1", userPoolStatus := "CONFIRMED", lastSyncTime := some 7 } :=
  C8_create_path dirSub1 7 kuNoSub
    { username := "alice", email := "a@x.com", enabled := true, sub := "sub-1" }
    rfl rfl rfl rfl

/-! ### C3: the deletion path never propagates directory errors -/

/-- C3: for a resource fetched with a non-null deletion timestamp and
**any** directory-client behaviour (including no client at all), the
pass removes the cleanup finalizer, and the returned error is exactly
the outcome of the object-store update that persists the removal — a
directory failure is never propagated. -/
theorem C3_deletion_swallows_dir_errors (kube : KubeBehavior) (dir : Option DirBehavior)
    (now : Nat) (u0 : KUser) (t : Nat)
    (h : u0.deletionTimestamp = some t) :
    (reconcileUser kube dir now u0).finalUser.finalizers
      = removeFinalizer u0.finalizers finalizerName ∧
    containsFinalizer (reconcileUser kube dir now u0).finalUser.finalizers finalizerName
      = false ∧
    (reconcileUser kube dir now u0).err
      = (kube.update { u0 with finalizers := removeFinalizer u0.finalizers finalizerName }).map
          RecError.kubeUpdateFailed := by
  simp only [reconcileUser, h]
  split
  · rename_i e heq
    refine ⟨rfl, containsFinalizer_removeFinalizer u0.finalizers finalizerName, ?_⟩
    rw [heq]
    rfl
  · rename_i heq
    refine ⟨rfl, containsFinalizer_removeFinalizer u0.finalizers finalizerName, ?_⟩
    rw [heq]
    rfl

/-- C3 witness: deletion of a concrete resource with no configured
directory client removes the finalizer and returns no error. -/
theorem C3_deletion_swallows_dir_errors_witness :
    (reconcileUser kubeOk none 0 kuDeleting).finalUser.finalizers
      = removeFinalizer kuDeleting.finalizers finalizerName ∧
    containsFinalizer (reconcileUser kubeOk none 0 kuDeleting).finalUser.finalizers
      finalizerName = false ∧
    (reconcileUser kubeOk none 0 kuDeleting).err
      = (kubeOk.update { kuDeleting with
          finalizers := removeFinalizer kuDeleting.finalizers finalizerName }).map
          RecError.kubeUpdateFailed :=
  C3_deletion_swallows_dir_errors kubeOk none 0 kuDeleting 1 rfl

/-! ### C6: create failure is retried with a 5-minute requeue -/

/-- C6: on a non-deleting resource that reaches the sync pass (the
finalizer is already present, or its persist succeeds), a not-found get
followed by a failing create makes `Reconcile` return the create error
with a 5-minute requeue; the status is untouched and no status write is
issued. -/
theorem C6_create_failure_requeue (kube : KubeBehavior) (d : DirBehavior) (now : Nat)
    (u0 : KUser) (e : DirError)
    (hdel : u0.deletionTimestamp = none)
    (hfin : containsFinalizer u0.finalizers finalizerName = true ∨
      kube.update { u0 with finalizers := u0.finalizers ++ [finalizerName] } = none)
    (hget : d.getUser (lookupId u0) = .error .notFound)
    (hcr : d.createUser (poolUserOf u0) = .error e) :
    (reconcileUser kube (some d) now u0).requeueAfterMinutes = 5 ∧
    (reconcileUser kube (some d) now u0).err = some (.createFailed e) ∧
    (reconcileUser kube (some d) now u0).finalUser.status = u0.status ∧
    (reconcileUser kube (some d) now u0).events.countP isStatusWrite = 0 := by
  by_cases hc : containsFinalizer u0.finalizers finalizerName = true
  · simp only [reconcileUser, hdel]
    rw [if_pos hc]
    simp only [reconcileActive, syncUserWithUserPool, hget, hcr]
    simp [List.countP_cons, isStatusWrite]
  · rw [hdel] at hfin
    have hupd := hfin.resolve_left hc
    have hget1 : d.getUser (lookupId { u0 with deletionTimestamp := none, finalizers := u0.finalizers ++ [finalizerName] }) = .error .notFound := hget
    have hcr1 : d.createUser (poolUserOf { u0 with deletionTimestamp := none, finalizers := u0.finalizers ++ [finalizerName] }) = .error e := hcr
    simp only [reconcileUser, hdel]
    rw [if_neg hc]
    simp only [hupd, reconcileActive, syncUserWithUserPool, hget1, hcr1]
    simp [List.countP_cons, isStatusWrite]

/-- C6 witness: a concrete failing create yields the 5-minute requeue
with the wrapped error and an unchanged status. -/
theorem C6_create_failure_requeue_witness :
    (reconcileUser kubeOk (some dirCreateFail) 0 kuNoSub).requeueAfterMinutes = 5 ∧
    (reconcileUser kubeOk (some dirCreateFail) 0 kuNoSub).err
      = some (.createFailed (.other "boom")) ∧
    (reconcileUser kubeOk (some dirCreateFail) 0 kuNoSub).finalUser.status
      = kuNoSub.status ∧
    (reconcileUser kubeOk (some dirCreateFail) 0 kuNoSub).events.countP isStatusWrite
      = 0 :=
  C6_create_failure_requeue kubeOk dirCreateFail 0 kuNoSub (.other "boom")
    rfl (Or.inl (by decide)) rfl rfl

/-! ### C2: the finalizer is persisted before any directory mutation -/

/-- C2: on a non-deleting resource, (1) if the finalizer was absent and
its persist fails, the pass returns that error having issued no
directory call at all; (2) every directory-mutating call in the trace is
preceded by the finalizer being present on the fetched resource or by a
successful persist of the finalizer-bearing resource earlier in the
trace. -/
theorem C2_finalizer_before_mutation (kube : KubeBehavior) (dir : Option DirBehavior)
    (now : Nat) (u0 : KUser)
    (hdel : u0.deletionTimestamp = none) :
    (∀ e, containsFinalizer u0.finalizers finalizerName = false →
      kube.update { u0 with finalizers := u0.finalizers ++ [finalizerName] } = some e →
      (reconcileUser kube dir now u0).events
        = [.kubeUpdate { u0 with finalizers := u0.finalizers ++ [finalizerName] }] ∧
      (reconcileUser kube dir now u0).err = some (.kubeUpdateFailed e)) ∧
    (∀ pre ev post, (reconcileUser kube dir now u0).events = pre ++ ev :: post →
      isDirMutating ev = true →
      containsFinalizer u0.finalizers finalizerName = true ∨
      ∃ u, Event.kubeUpdate u ∈ pre ∧
        containsFinalizer u.finalizers finalizerName = true ∧
        kube.update u = none) := by
  constructor
  · intro e hcf hupd
    rw [hdel] at hupd
    have hrec : reconcileUser kube dir now u0 =
        { requeueAfterMinutes := 0, err := some (.kubeUpdateFailed e),
          finalUser := { u0 with deletionTimestamp := none, finalizers := u0.finalizers ++ [finalizerName] },
          events := [.kubeUpdate { u0 with deletionTimestamp := none, finalizers := u0.finalizers ++ [finalizerName] }] } := by
      simp only [reconcileUser, hdel]
      rw [if_neg (by simp [hcf])]
      simp only [hupd]
    rw [hrec, hdel]
    exact ⟨rfl, rfl⟩
  · intro pre ev post hsplit hmut
    by_cases hc : containsFinalizer u0.finalizers finalizerName = true
    · exact Or.inl hc
    · right
      cases hupd : kube.update { u0 with deletionTimestamp := none, finalizers := u0.finalizers ++ [finalizerName] } with
      | some e =>
        exfalso
        have hev : (reconcileUser kube dir now u0).events
            = [.kubeUpdate { u0 with deletionTimestamp := none, finalizers := u0.finalizers ++ [finalizerName] }] := by
          simp only [reconcileUser, hdel]
          rw [if_neg hc]
          simp only [hupd]
        rw [hev] at hsplit
        cases pre with
        | nil =>
          simp only [List.nil_append, List.cons.injEq] at hsplit
          rw [← hsplit.1] at hmut
          simp [isDirMutating] at hmut
        | cons p ps =>
          simp only [List.cons_append, List.cons.injEq] at hsplit
          exact absurd hsplit.2 (by simp)
      | none =>
        have hev : (reconcileUser kube dir now u0).events
            = .kubeUpdate { u0 with deletionTimestamp := none, finalizers := u0.finalizers ++ [finalizerName] } ::
              (reconcileActive kube dir now
                { u0 with deletionTimestamp := none, finalizers := u0.finalizers ++ [finalizerName] }).events := by
          simp only [reconcileUser, hdel]
          rw [if_neg hc]
          simp only [hupd]
        rw [hev] at hsplit
        cases pre with
        | nil =>
          exfalso
          simp only [List.nil_append, List.cons.injEq] at hsplit
          rw [← hsplit.1] at hmut
          simp [isDirMutating] at hmut
        | cons p ps =>
          simp only [List.cons_append, List.cons.injEq] at hsplit
          refine ⟨{ u0 with deletionTimestamp := none, finalizers := u0.finalizers ++ [finalizerName] },
            ?_, ?_, hupd⟩
          · rw [← hsplit.1]
            exact List.mem_cons_self _ _
          · simp [containsFinalizer]

/-- C2 witness: a concrete non-deleting resource, with the two parts of
the gate instantiated. -/
theorem C2_finalizer_before_mutation_witness :
    (∀ e, containsFinalizer kuNoSub.finalizers finalizerName = false →
      kubeOk.update { kuNoSub with finalizers := kuNoSub.finalizers ++ [finalizerName] } = some e →
      (reconcileUser kubeOk (some dirNewSub) 0 kuNoSub).events
        = [.kubeUpdate { kuNoSub with finalizers := kuNoSub.finalizers ++ [finalizerName] }] ∧
      (reconcileUser kubeOk (some dirNewSub) 0 kuNoSub).err = some (.kubeUpdateFailed e)) ∧
    (∀ pre ev post,
      (reconcileUser kubeOk (some dirNewSub) 0 kuNoSub).events = pre ++ ev :: post →
      isDirMutating ev = true →
      containsFinalizer kuNoSub.finalizers finalizerName = true ∨
      ∃ u, Event.kubeUpdate u ∈ pre ∧
        containsFinalizer u.finalizers finalizerName = true ∧
        kubeOk.update u = none) :=
  C2_finalizer_before_mutation kubeOk (some dirNewSub) 0 kuNoSub rfl

end KcpUsers
